import Mathlib

/-!
Verification development for the TD_SOUND engine (SoundEngine.h, Harmonica.cpp).

Floating-point `double` arithmetic of the source is modelled over `ℝ` for the
synthesis primitives (oscillators, envelopes, pitch table) and over `ℚ` for the
time/length/volume bookkeeping of the MML parser; all quantities the claims touch
are produced by exact binary operations in the source, so the idealisation
agrees with the `double` computation there.  The hash used by the noise
oscillator is kept abstract (any function to `size_t`), and pitch-table entries
consumed by the parser are kept polymorphic (the parser only ever indexes the
table, never inspects an entry).
-/

namespace TDSound

/-! ### Pitch table (SoundEngine.h, generateTwelveToneEqual) -/

/-- One octave of the table: entries `A / 2^(9/12) .. A .. A * 2^(2/12)`,
mirroring the twelve assignments in the octave loop of the source. -/
noncomputable def octaveList (A : ℝ) : List ℝ :=
  [A / (2 : ℝ) ^ ((9 : ℝ) / 12),
   A / (2 : ℝ) ^ ((8 : ℝ) / 12),
   A / (2 : ℝ) ^ ((7 : ℝ) / 12),
   A / (2 : ℝ) ^ ((6 : ℝ) / 12),
   A / (2 : ℝ) ^ ((5 : ℝ) / 12),
   A / (2 : ℝ) ^ ((4 : ℝ) / 12),
   A / (2 : ℝ) ^ ((3 : ℝ) / 12),
   A / (2 : ℝ) ^ ((2 : ℝ) / 12),
   A / (2 : ℝ) ^ ((1 : ℝ) / 12),
   A,
   A * (2 : ℝ) ^ ((1 : ℝ) / 12),
   A * (2 : ℝ) ^ ((2 : ℝ) / 12)]

/-- The octave loop of `generateTwelveToneEqual`: `A` doubles after each
octave (`A *= 2.0` in the source, exact in binary floating point). -/
noncomputable def genOctaves (A : ℝ) : ℕ → List ℝ
  | 0 => []
  | n + 1 => octaveList A ++ genOctaves (A * 2) n

/-- `generateTwelveToneEqual`: 9 octaves seeded with `AAboveMiddleC / 16.0`. -/
noncomputable def generateTwelveToneEqual (AAboveMiddleC : ℝ) : List ℝ :=
  genOctaves (AAboveMiddleC / 16) 9

/-- `getStandardTwelveToneEqualNotes`: the table for A440. -/
noncomputable def getStandardTwelveToneEqualNotes : List ℝ :=
  generateTwelveToneEqual 440

/-! ### Oscillator primitives (SoundEngine.h lines 256-288) -/

/-- The constant `M_TWOPI` of the source (its `M_PI` is the usual decimal literal for π;
we use the real π, which changes no claim considered here). -/
noncomputable def twoPi : ℝ := 2 * Real.pi

noncomputable def sineWave (frequency time : ℝ) : ℝ :=
  Real.sin (frequency * twoPi * time)

noncomputable def triangularWave (frequency time : ℝ) : ℝ :=
  Real.arcsin (Real.sin (frequency * twoPi * time)) / (Real.pi / 2)

/-- `copysign(1.0, sin ...)`; over ℝ there is no negative zero, so the sign of
a nonnegative argument is `+1`. -/
noncomputable def squareWave (frequency time : ℝ) : ℝ :=
  if Real.sin (frequency * twoPi * time) < 0 then -1 else 1

noncomputable def sawWave (frequency time : ℝ) : ℝ :=
  2 * (frequency * time - (Int.floor (frequency * time + 1 / 2) : ℝ))

/-- `std::hash<double>` is modelled as an arbitrary function into `size_t`
(64-bit); the source divides by `std::numeric_limits<size_t>::max()`. -/
noncomputable def noise (hash : ℝ → ℕ) (frequency time : ℝ) : ℝ :=
  1 - 2 * ((hash (frequency * twoPi * time) : ℝ) / ((2 : ℝ) ^ (64 : ℕ) - 1))

noncomputable def rectangularWave (frequency time duty : ℝ) : ℝ :=
  let T := frequency * twoPi * time
  let loc := T - (Int.floor (T / twoPi) : ℝ) * twoPi
  if loc ≤ duty * twoPi then 1 else -1

/-- Harmonica.cpp `OscillatorHolder`: (gain, oscillator, harmonic). -/
structure OscillatorHolder where
  gain : ℝ
  oscillator : ℝ → ℝ → ℝ
  harmonic : ℝ

/-- Harmonica.cpp `CompoundOscillator::note`: accumulate
`gain * osc.note(harmonic * frequency, time)` over the member list. -/
noncomputable def compoundNote (oscillators : List OscillatorHolder)
    (frequency time : ℝ) : ℝ :=
  oscillators.foldl
    (fun result osc => result + osc.gain * osc.oscillator (osc.harmonic * frequency) time) 0

/-! ### Envelopes (SoundEngine.h AREnvelope, Harmonica.cpp ADSREnvelope) -/

structure AREnvelope where
  attackPeak : ℝ
  attackLength : ℝ
  releaseLength : ℝ

/-- `AREnvelope::loud`, translated branch for branch.  Note that in the
released (`releaseTime ≠ -1`) branch the attack-section value is computed
from `time`, not from `releaseTime`; only the branch selection uses the
release snapshot. -/
noncomputable def AREnvelope.loud (e : AREnvelope) (time releaseTime : ℝ) : ℝ :=
  if releaseTime = -1 then
    if time < e.attackLength then time / e.attackLength * e.attackPeak
    else e.attackPeak
  else
    (if releaseTime < e.attackLength then time / e.attackLength * e.attackPeak
     else e.attackPeak) *
      ((releaseTime + e.releaseLength - time) / e.releaseLength)

structure ADSREnvelope where
  attackPeak : ℝ
  attackLength : ℝ
  decayLength : ℝ
  sustainLevel : ℝ
  releaseLength : ℝ

/-- `ADSREnvelope::loud` from Harmonica.cpp, translated branch for branch. -/
noncomputable def ADSREnvelope.loud (e : ADSREnvelope) (time releaseTime : ℝ) : ℝ :=
  if releaseTime = -1 then
    if time < e.attackLength then time / e.attackLength * e.attackPeak
    else if time < e.attackLength + e.decayLength then
      e.attackPeak - (time - e.attackLength) / e.decayLength * (e.attackPeak - e.sustainLevel)
    else e.sustainLevel
  else
    (if releaseTime < e.attackLength then time / e.attackLength * e.attackPeak
     else if releaseTime < e.attackLength + e.decayLength then
      e.attackPeak - (time - e.attackLength) / e.decayLength * (e.attackPeak - e.sustainLevel)
     else e.sustainLevel) *
      ((releaseTime + e.releaseLength - time) / e.releaseLength)

/-! ### MML parser (SoundEngine.h, StringProcessor and buildVoiceFromString)

Time, lengths and volumes are `ℚ` (the corresponding `double` quantities in
the claims are exact dyadic rationals).  Pitch-table entries are a type
parameter `P`: the parser only indexes the table.  Instruments are the
inductive `Instr`; an entry of the user-supplied instrument map is
represented by its key (`Instr.ext`). -/

/-- The apostrophe character (the staccato suffix in the MML dialect). -/
def apos : Char := Char.ofNat 39

/-- The apostrophe as a one-character string, for error-message building. -/
def aposS : String := String.singleton apos

/-- The NUL character, key of the required default instrument. -/
def nulChar : Char := Char.ofNat 0

/-- C `isspace` for the ASCII characters the engine can meet. -/
def cIsSpace (c : Char) : Bool :=
  c == ' ' || c == '\t' || c == '\n' || c == '\x0b' || c == '\x0c' || c == '\r'

/-- C `toupper` on ASCII. -/
def cToUpper (c : Char) : Char :=
  if 'a' ≤ c ∧ c ≤ 'z' then Char.ofNat (c.toNat - 32) else c

/-- `StringProcessor` uppercases and skips whitespace with one-character
lookahead; its observable token stream is the uppercased, space-stripped
character list. -/
def tokens (s : String) : List Char :=
  (s.data.map cToUpper).filter (fun c => !(cIsSpace c))

/-- `peek()` past the end of input yields `'\0'` in the source. -/
def peekC (l : List Char) : Char := l.headD nulChar

/-- Instruments as the parser can select them (`IQ`,`IT`,`IS`,`IW`,`IN`,
`IPn`, `IXc`); a map entry is represented by its key character. -/
inductive Instr where
  | square
  | triangle
  | sine
  | saw
  | noiseI
  | rect (duty : ℚ)
  | ext (key : Char)
deriving DecidableEq, Repr

/-- A parsed note: `Note(instrument, frequency, startTime, duration, volume)`
with the frequency drawn from the pitch table. -/
structure MNote (P : Type) where
  instrument : Instr
  frequency : P
  startTime : ℚ
  duration : ℚ
  volume : ℚ
deriving DecidableEq, Repr

/-- The mutable locals of `buildVoiceFromString`. -/
structure PState (P : Type) where
  currentOctave : ℤ
  currentBeatNote : ℤ
  currentTempo : ℤ
  articulation : ℚ
  noteLength : ℚ
  volume : ℚ
  time : ℚ
  instrument : Instr
  notes : List (MNote P)
deriving DecidableEq, Repr

/-- Initial parser state (defaults of `buildVoiceFromString`); the initial
instrument is the NUL entry of the instrument map. -/
def initState (P : Type) : PState P :=
  { currentOctave := 4
    currentBeatNote := 4
    currentTempo := 120
    articulation := 7 / 8
    noteLength := 240 / (4 * 120)
    volume := 1 / 2
    time := 0
    instrument := Instr.ext nulChar
    notes := [] }

/-- Numeric value of a digit character, as in `consume() - '0'`. -/
def digitVal (c : Char) : ℤ := (c.toNat : ℤ) - 48

/-- The greedy digit loop of `StringProcessor::getNumber`. -/
def getNumberAux (acc : ℤ) : List Char → ℤ × List Char
  | [] => (acc, [])
  | c :: cs =>
    if '0' ≤ c ∧ c ≤ '9' then getNumberAux (acc * 10 + digitVal c) cs
    else (acc, c :: cs)

/-- `StringProcessor::getNumber`: at least one digit is required. -/
def getNumber : List Char → Except String (ℤ × List Char)
  | [] => Except.error ("Command requires value, none given.")
  | c :: cs =>
    if '0' ≤ c ∧ c ≤ '9' then Except.ok (getNumberAux (digitVal c) cs)
    else Except.error ("Command requires value, none given.")

/-- Value of a digit string, as accumulated by `getNumber`. -/
def valDigits (ds : List Char) : ℤ :=
  ds.foldl (fun a c => a * 10 + digitVal c) 0

/-- The per-note temporaries of the note-letter case. -/
structure ModState where
  note : ℤ
  tempDuration : ℚ
  tempLength : ℚ
  tempVolume : ℚ
  nextDot : ℚ
  advance : Bool
deriving DecidableEq, Repr

/-- The suffix/modifier loop after a note letter (`#`,`+`,`-`,`.`, explicit
length digits, `_`, staccato apostrophe, `^`, `,`).  The loop consumes at
least one character per iteration, so any fuel exceeding the input length is
enough; with insufficient fuel it stops early (never reached from
`buildVoiceFromString`). -/
def modLoop (tempo : ℤ) : ℕ → ModState → List Char → Except String (ModState × List Char)
  | _, ms, [] => Except.ok (ms, [])
  | 0, ms, l => Except.ok (ms, l)
  | fuel + 1, ms, c :: cs =>
    if c = '+' ∨ c = '#' then
      if ms.note + 1 = 108 then Except.error ("Tried to sharp the highest note.")
      else modLoop tempo fuel { ms with note := ms.note + 1 } cs
    else if c = '-' then
      if ms.note - 1 = -1 then Except.error ("Tried to flat the lowest note.")
      else modLoop tempo fuel { ms with note := ms.note - 1 } cs
    else if c = '.' then
      modLoop tempo fuel
        { ms with tempLength := ms.tempLength + ms.nextDot, nextDot := ms.nextDot * (1 / 2) } cs
    else if '1' ≤ c ∧ c ≤ '9' then
      let r := getNumberAux (digitVal c) cs
      if r.1 < 1 ∨ 64 < r.1 then Except.error ("Invalid note length.")
      else
        let L : ℚ := 240 / ((r.1 : ℚ) * (tempo : ℚ))
        modLoop tempo fuel { ms with tempLength := L, nextDot := L * (1 / 2) } r.2
    else if c = '_' then
      modLoop tempo fuel { ms with tempDuration := 1 } cs
    else if c = apos then
      modLoop tempo fuel { ms with tempDuration := 3 / 4 } cs
    else if c = '^' then
      modLoop tempo fuel { ms with tempVolume := min (ms.tempVolume + 1 / 8) 1 } cs
    else if c = ',' then
      Except.ok ({ ms with advance := false }, cs)
    else
      Except.ok (ms, c :: cs)

/-- The dot loop of the rest (`P`/`R`) command. -/
def dotLoop (tempLength nextDot : ℚ) : List Char → ℚ × List Char
  | [] => (tempLength, [])
  | c :: cs =>
    if c = '.' then dotLoop (tempLength + nextDot) (nextDot * (1 / 2)) cs
    else (tempLength, c :: cs)

/-- The `A`..`G` semitone map `{ 9, 11, 0, 2, 4, 5, 7 }`. -/
def semitoneMap : List ℤ := [9, 11, 0, 2, 4, 5, 7]

/-- Consume an optional `';'` (allowed after the long volume commands). -/
def semiDrop (l : List Char) : List Char :=
  if peekC l = ';' then l.tail else l

/-- Error message of the default case of the command switch. -/
def mkBadCmd (c : Char) : String :=
  "Did not understand command component " ++ aposS ++ String.singleton c ++ aposS ++ "."

/-- Error message of the default case of the `M` sub-switch. -/
def mkBadMusic (c : Char) : String :=
  "Did not understand music (" ++ aposS ++ "M" ++ aposS ++ ") command component " ++
    aposS ++ String.singleton c ++ aposS ++ "."

/-- Error message for `>` past the highest octave. -/
def octUpMsg : String :=
  "Operation " ++ aposS ++ ">" ++ aposS ++ " exceeded octave range."

/-- Error message for `<` past the lowest octave. -/
def octDownMsg : String :=
  "Operation " ++ aposS ++ "<" ++ aposS ++ " exceeded octave range."

/-- Error message for `VM` followed by neither `P` nor `F`. -/
def mezzoMsg : String :=
  "Invalid volume specification: mezzo-I-don" ++ aposS ++ "t-know."

variable {P : Type} [Inhabited P]

/-- One iteration of the command `switch` of `buildVoiceFromString`: `c` is
the consumed lookahead character, `cs` the rest of the token stream.  Returns
the updated state and the remaining stream. -/
def step (pitches : List P) (insts : List Char) (st : PState P) (c : Char)
    (cs : List Char) : Except String (PState P × List Char) :=
  if 'A' ≤ c ∧ c ≤ 'G' then
    let semis := semitoneMap.getD (c.toNat - 65) 0
    let ms0 : ModState :=
      { note := st.currentOctave * 12 + semis
        tempDuration := st.articulation
        tempLength := st.noteLength
        tempVolume := st.volume
        nextDot := st.noteLength * (1 / 2)
        advance := true }
    match modLoop st.currentTempo (cs.length + 1) ms0 cs with
    | Except.error e => Except.error e
    | Except.ok (ms, rest) =>
      Except.ok
        ({ st with
            notes := st.notes ++
              [{ instrument := st.instrument
                 frequency := pitches.getD ms.note.toNat default
                 startTime := st.time
                 duration := ms.tempLength * ms.tempDuration
                 volume := ms.tempVolume }]
            time := if ms.advance then st.time + ms.tempLength else st.time }, rest)
  else if c = '>' then
    if st.currentOctave + 1 = 9 then Except.error octUpMsg
    else Except.ok ({ st with currentOctave := st.currentOctave + 1 }, cs)
  else if c = '<' then
    if st.currentOctave - 1 = -1 then Except.error octDownMsg
    else Except.ok ({ st with currentOctave := st.currentOctave - 1 }, cs)
  else if c = 'T' then
    match getNumber cs with
    | Except.error e => Except.error e
    | Except.ok (n, rest) =>
      if n < 16 ∨ 256 < n then
        Except.error ("Asked to play music either too slow or too fast.")
      else
        Except.ok
          ({ st with
              currentTempo := n
              noteLength := 240 / ((st.currentBeatNote : ℚ) * (n : ℚ)) }, rest)
  else if c = 'L' then
    match getNumber cs with
    | Except.error e => Except.error e
    | Except.ok (n, rest) =>
      if n < 1 ∨ 64 < n then Except.error ("Invalid note length.")
      else
        Except.ok
          ({ st with
              currentBeatNote := n
              noteLength := 240 / ((n : ℚ) * (st.currentTempo : ℚ)) }, rest)
  else if c = 'O' then
    match getNumber cs with
    | Except.error e => Except.error e
    | Except.ok (n, rest) =>
      if 9 ≤ n then Except.error ("Set current octave too high.")
      else Except.ok ({ st with currentOctave := n }, rest)
  else if c = 'N' then
    match getNumber cs with
    | Except.error e => Except.error e
    | Except.ok (n, rest) =>
      if 108 < n then Except.error ("Invalid note number.")
      else
        Except.ok
          ({ st with
              notes :=
                if n ≠ 0 then
                  st.notes ++
                    [{ instrument := st.instrument
                       frequency := pitches.getD (n - 1).toNat default
                       startTime := st.time
                       duration := st.noteLength * st.articulation
                       volume := st.volume }]
                else st.notes
              time := st.time + st.noteLength }, rest)
  else if c = 'P' ∨ c = 'R' then
    if '0' ≤ peekC cs ∧ peekC cs ≤ '9' then
      match getNumber cs with
      | Except.error e => Except.error e
      | Except.ok (len, rest) =>
        if len < 1 ∨ 64 < len then Except.error ("Invalid note length.")
        else
          let L : ℚ := 240 / ((len : ℚ) * (st.currentTempo : ℚ))
          let d := dotLoop L (L * (1 / 2)) rest
          Except.ok ({ st with time := st.time + d.1 }, d.2)
    else
      let d := dotLoop st.noteLength (st.noteLength * (1 / 2)) cs
      Except.ok ({ st with time := st.time + d.1 }, d.2)
  else if c = 'M' then
    let c2 := peekC cs
    if c2 = 'F' ∨ c2 = 'B' then Except.ok (st, cs.tail)
    else if c2 = 'L' then Except.ok ({ st with articulation := 1 }, cs.tail)
    else if c2 = 'N' then Except.ok ({ st with articulation := 7 / 8 }, cs.tail)
    else if c2 = 'S' then Except.ok ({ st with articulation := 3 / 4 }, cs.tail)
    else Except.error (mkBadMusic c2)
  else if c = 'I' then
    let c2 := peekC cs
    if c2 = 'Q' then Except.ok ({ st with instrument := Instr.square }, cs.tail)
    else if c2 = 'T' then Except.ok ({ st with instrument := Instr.triangle }, cs.tail)
    else if c2 = 'S' then Except.ok ({ st with instrument := Instr.sine }, cs.tail)
    else if c2 = 'W' then Except.ok ({ st with instrument := Instr.saw }, cs.tail)
    else if c2 = 'N' then Except.ok ({ st with instrument := Instr.noiseI }, cs.tail)
    else if c2 = 'X' then
      let key := peekC cs.tail
      if key ∈ insts then
        Except.ok ({ st with instrument := Instr.ext key }, cs.tail.tail)
      else Except.error ("Invalid instrument.")
    else if c2 = 'P' then
      match getNumber cs.tail with
      | Except.error e => Except.error e
      | Except.ok (duty, rest) =>
        if duty < 1 ∨ 99 < duty then
          Except.error ("Invalid duty cycle for a rectangular wave.")
        else Except.ok ({ st with instrument := Instr.rect ((duty : ℚ) / 100) }, rest)
    else Except.error ("Invalid instrument.")
  else if c = 'V' then
    let c2 := peekC cs
    if '0' ≤ c2 ∧ c2 ≤ '9' then
      match getNumber cs with
      | Except.error e => Except.error e
      | Except.ok (nv, rest) =>
        if 100 < nv then Except.error ("Invalid volume.")
        else Except.ok ({ st with volume := (nv : ℚ) / 100 }, rest)
    else if c2 = 'P' then
      let cs1 := cs.tail
      if peekC cs1 = 'P' then
        let cs2 := cs1.tail
        if peekC cs2 = 'P' then
          Except.ok ({ st with volume := 1 / 8 }, semiDrop cs2.tail)
        else Except.ok ({ st with volume := 1 / 4 }, semiDrop cs2)
      else Except.ok ({ st with volume := 3 / 8 }, semiDrop cs1)
    else if c2 = 'M' then
      let cs1 := cs.tail
      if peekC cs1 = 'P' then Except.ok ({ st with volume := 1 / 2 }, semiDrop cs1.tail)
      else if peekC cs1 = 'F' then Except.ok ({ st with volume := 5 / 8 }, semiDrop cs1.tail)
      else Except.error mezzoMsg
    else if c2 = 'F' then
      let cs1 := cs.tail
      if peekC cs1 ≠ 'F' then Except.ok ({ st with volume := 3 / 4 }, semiDrop cs1)
      else
        let cs2 := cs1.tail
        if peekC cs2 ≠ 'F' then Except.ok ({ st with volume := 7 / 8 }, semiDrop cs2)
        else Except.ok ({ st with volume := 1 }, semiDrop cs2.tail)
    else Except.error ("Invalid volume specification.")
  else Except.error (mkBadCmd c)

/-- The command loop of `buildVoiceFromString`.  Every command consumes at
least one character, so fuel exceeding the token count is enough; the
fuel-exhausted case (never reached from `buildVoiceFromString`) stops with
the current state. -/
def run (pitches : List P) (insts : List Char) : ℕ → PState P → List Char → Except String (PState P)
  | _, st, [] => Except.ok st
  | 0, st, _ :: _ => Except.ok st
  | fuel + 1, st, c :: cs =>
    match step pitches insts st c cs with
    | Except.error e => Except.error e
    | Except.ok p => run pitches insts fuel p.1 p.2

/-- `buildVoiceFromString`: configuration checks, then the command loop; the
resulting Voice is its frozen note list. -/
def buildVoiceFromString (pitches : List P) (insts : List Char) (input : String) :
    Except String (List (MNote P)) :=
  if pitches.length ≠ 108 then Except.error ("Note array of invalid size.")
  else if ¬ nulChar ∈ insts then
    Except.error ("No default instrument in instrument list.")
  else
    match run pitches insts ((tokens input).length + 1) (initState P) (tokens input) with
    | Except.error e => Except.error e
    | Except.ok st => Except.ok st.notes

/-- The loop of `Maestro::Maestro(music, instruments)`: build the voice of
each line in order, dropping voices that are already finished (empty); a parse
error aborts the whole construction. -/
def maestroAux (pitches : List P) (insts : List Char)
    (choir : List (List (MNote P))) : List String → Except String (List (List (MNote P)))
  | [] => Except.ok choir
  | s :: rest =>
    match buildVoiceFromString pitches insts s with
    | Except.error e => Except.error e
    | Except.ok ns =>
      maestroAux pitches insts (if ns.isEmpty then choir else choir ++ [ns]) rest

/-- `Maestro::Maestro(music, instruments)` starting from an empty choir. -/
def maestroFromStrings (pitches : List P) (insts : List Char) (music : List String) :
    Except String (List (List (MNote P))) :=
  maestroAux pitches insts [] music

/-- The invariant of the parser loop used for the note-ordering claim:
tempo, beat note and note length stay positive, emitted notes are in
non-decreasing start-time order, and no emitted note starts after the
cursor. -/
def ParserInv {P : Type} (st : PState P) : Prop :=
  0 < st.currentTempo ∧ 0 < st.currentBeatNote ∧ 0 < st.noteLength ∧
  st.notes.Pairwise (fun a b => a.startTime ≤ b.startTime) ∧
  ∀ n ∈ st.notes, n.startTime ≤ st.time

/-! ### Venue (SoundEngine.h lines 1186-1268)

The Venue only uses three capabilities of a Maestro (`play`, mutating the
cursors of the voices, `finished`, and `loop`), so the Maestro is abstracted behind
that interface.  The `hollaback` callback may mutate the queue and flags (as
`queueMusic`/`clearQueue` would); it is modelled as a transformer of the
mutable core state. -/

/-- The three Maestro member functions `Venue::getSample` calls. -/
structure MaestroAPI (M : Type) where
  play : M → ℝ → ℝ × M
  finished : M → Bool
  loop : M → M

/-- The mutable fields of `Venue` (minus the callback). -/
structure VenueCore (M : Type) where
  program : List M
  stopPlaying : Bool
  looping : Bool
  internalTime : ℝ

/-- The whole `Venue`: core state plus the optional `hollaback` callback. -/
structure VenueState (M : Type) where
  core : VenueCore M
  hollaback : Option (VenueCore M → VenueCore M)

/-- Invoke the callback when installed (`if (nullptr != hollaback) hollaback()`). -/
def applyCb {M : Type} (cb : Option (VenueCore M → VenueCore M)) (c : VenueCore M) :
    VenueCore M :=
  match cb with
  | some f => f c
  | none => c

/-- `Venue::getSample`, translated statement for statement.  The unused
`globalTime` parameter is kept in the signature exactly as in the source. -/
noncomputable def getSample {M : Type} (api : MaestroAPI M) (v : VenueState M)
    (unused : ℤ) (globalTime timeDelta : ℝ) : ℝ × VenueState M :=
  if unused ≠ 0 then (0, v)
  else
    let c1 :=
      if v.core.stopPlaying then
        applyCb v.hollaback
          { program := [], stopPlaying := false, looping := v.core.looping,
            internalTime := -1 }
      else v.core
    match c1.program with
    | [] => (0, { core := c1, hollaback := v.hollaback })
    | m :: rest =>
      let c2 :=
        if api.finished m then
          if c1.looping then
            { c1 with program := api.loop m :: rest, internalTime := -1 }
          else { c1 with program := rest, internalTime := -1 }
        else c1
      let c3 := if c2.program.isEmpty then applyCb v.hollaback c2 else c2
      if c3.program.isEmpty then (0, { core := c3, hollaback := v.hollaback })
      else
        let c4 :=
          if c3.internalTime = -1 then { c3 with internalTime := 0 }
          else { c3 with internalTime := c3.internalTime + timeDelta }
        match c4.program with
        | [] => (0, { core := c4, hollaback := v.hollaback })
        | m2 :: rest2 =>
          let pr := api.play m2 c4.internalTime
          (pr.1, { core := { c4 with program := pr.2 :: rest2 }, hollaback := v.hollaback })

/-- Steps 3-7 of `Venue::getSample` (everything after the channel check and
the stop-request handling), as an independent translation of lines
1235-1267. -/
noncomputable def getSampleTail {M : Type} (api : MaestroAPI M) (v : VenueState M)
    (timeDelta : ℝ) : ℝ × VenueState M :=
  match v.core.program with
  | [] => (0, v)
  | m :: rest =>
    let c2 :=
      if api.finished m then
        if v.core.looping then
          { v.core with program := api.loop m :: rest, internalTime := -1 }
        else { v.core with program := rest, internalTime := -1 }
      else v.core
    let c3 := if c2.program.isEmpty then applyCb v.hollaback c2 else c2
    if c3.program.isEmpty then (0, { core := c3, hollaback := v.hollaback })
    else
      let c4 :=
        if c3.internalTime = -1 then { c3 with internalTime := 0 }
        else { c3 with internalTime := c3.internalTime + timeDelta }
      match c4.program with
      | [] => (0, { core := c4, hollaback := v.hollaback })
      | m2 :: rest2 =>
        let pr := api.play m2 c4.internalTime
        (pr.1, { core := { c4 with program := pr.2 :: rest2 }, hollaback := v.hollaback })

/-! ### Fixtures used to instantiate theorems at concrete inputs -/

/-- A trivial Maestro interface over `Unit`, for concrete instantiations. -/
def unitAPI : MaestroAPI Unit :=
  { play := fun _ _ => (0, ()), finished := fun _ => true, loop := fun _ => () }

/-- A stopped Venue with an empty queue and no callback. -/
def stopVenue : VenueState Unit :=
  { core := { program := [], stopPlaying := true, looping := false, internalTime := -1 }
    hollaback := none }

/-- A stopped Venue holding one queued (trivial) Maestro. -/
def stopVenue2 : VenueState Unit :=
  { core := { program := [()], stopPlaying := true, looping := true, internalTime := 5 }
    hollaback := none }

/-! ### Helper lemmas -/

/-- Entry `12 * k + 9` of the generated table (the octave-`k` reference A). -/
theorem genOctaves_A_entry :
    ∀ (n k : ℕ) (A : ℝ), k < n → (genOctaves A n).getD (12 * k + 9) 0 = A * 2 ^ k := by
  intro n
  induction n with
  | zero => intro k A h; exact absurd h (Nat.not_lt_zero k)
  | succ n ih =>
    intro k A h
    cases k with
    | zero =>
      rw [genOctaves, List.getD_append]
      · show (octaveList A).getD 9 0 = A * 2 ^ 0
        simp [octaveList]
      · show 12 * 0 + 9 < (octaveList A).length
        simp [octaveList]
    | succ k =>
      rw [genOctaves, List.getD_append_right]
      · have hlen : (octaveList A).length = 12 := by simp [octaveList]
        have hidx : 12 * (k + 1) + 9 - (octaveList A).length = 12 * k + 9 := by
          rw [hlen]; omega
        rw [hidx, ih k (A * 2) (by omega)]
        ring
      · have hlen : (octaveList A).length = 12 := by simp [octaveList]
        omega

/-- Bound on the compound-oscillator accumulator. -/
theorem compound_fold_bound (f t : ℝ) :
    ∀ (l : List OscillatorHolder),
      (∀ o ∈ l, ∀ fr ti, |o.oscillator fr ti| ≤ 1) →
      ∀ x : ℝ,
        |List.foldl
            (fun result osc => result + osc.gain * osc.oscillator (osc.harmonic * f) t)
            x l| ≤
          |x| + (l.map (fun o => |o.gain|)).sum := by
  intro l
  induction l with
  | nil => intro _ x; simp
  | cons o l ih =>
    intro h x
    have h1 : ∀ o2 ∈ l, ∀ fr ti, |o2.oscillator fr ti| ≤ 1 :=
      fun o2 ho2 => h o2 (List.mem_cons_of_mem _ ho2)
    have hw : |o.oscillator (o.harmonic * f) t| ≤ 1 :=
      h o (List.mem_cons_self o l) _ _
    have hstep : |x + o.gain * o.oscillator (o.harmonic * f) t| ≤ |x| + |o.gain| := by
      calc |x + o.gain * o.oscillator (o.harmonic * f) t| ≤
            |x| + |o.gain * o.oscillator (o.harmonic * f) t| := abs_add _ _
        _ = |x| + |o.gain| * |o.oscillator (o.harmonic * f) t| := by rw [abs_mul]
        _ ≤ |x| + |o.gain| * 1 :=
            add_le_add_left (mul_le_mul_of_nonneg_left hw (abs_nonneg _)) _
        _ = |x| + |o.gain| := by ring
    have := ih h1 (x + o.gain * o.oscillator (o.harmonic * f) t)
    simp only [List.foldl_cons, List.map_cons, List.sum_cons]
    linarith

/-- The greedy digit loop on a digit block followed by a non-digit rest. -/
theorem getNumberAux_append :
    ∀ (ds : List Char) (acc : ℤ) (r : List Char),
      (∀ c ∈ ds, '0' ≤ c ∧ c ≤ '9') →
      (∀ c, r.head? = some c → ¬('0' ≤ c ∧ c ≤ '9')) →
      getNumberAux acc (ds ++ r) = (ds.foldl (fun a c => a * 10 + digitVal c) acc, r) := by
  intro ds
  induction ds with
  | nil =>
    intro acc r _ hr
    simp only [List.nil_append, List.foldl_nil]
    cases r with
    | nil => rfl
    | cons c cs =>
      unfold getNumberAux
      rw [if_neg (hr c rfl)]
  | cons d ds ih =>
    intro acc r hds hr
    simp only [List.cons_append, List.foldl_cons]
    unfold getNumberAux
    rw [if_pos (hds d (List.mem_cons_self d ds))]
    exact ih _ r (fun c hc => hds c (List.mem_cons_of_mem _ hc)) hr

/-- `getNumber` on a nonempty digit block followed by a non-digit rest. -/
theorem getNumber_spec (ds r : List Char) (hne : ds ≠ [])
    (hds : ∀ c ∈ ds, '0' ≤ c ∧ c ≤ '9')
    (hr : ∀ c, r.head? = some c → ¬('0' ≤ c ∧ c ≤ '9')) :
    getNumber (ds ++ r) = Except.ok (valDigits ds, r) := by
  cases ds with
  | nil => exact absurd rfl hne
  | cons d ds =>
    rw [List.cons_append]
    show (if '0' ≤ d ∧ d ≤ '9' then Except.ok (getNumberAux (digitVal d) (ds ++ r))
          else Except.error ("Command requires value, none given.")) =
        Except.ok (valDigits (d :: ds), r)
    rw [if_pos (hds d (List.mem_cons_self d ds))]
    rw [getNumberAux_append ds (digitVal d) r (fun c hc => hds c (List.mem_cons_of_mem _ hc)) hr]
    unfold valDigits
    rw [List.foldl_cons]
    norm_num

/-- The rest-command dot loop keeps a positive length positive. -/
theorem dotLoop_pos :
    ∀ (l : List Char) (tempLength nextDot : ℚ),
      0 < tempLength → 0 < nextDot → 0 < (dotLoop tempLength nextDot l).1 := by
  intro l
  induction l with
  | nil => intro t n ht _; exact ht
  | cons c cs ih =>
    intro t n ht hn
    unfold dotLoop
    by_cases hc : c = '.'
    · rw [if_pos hc]
      exact ih _ _ (by linarith) (by linarith)
    · rw [if_neg hc]
      exact ht

/-- The note-modifier loop keeps a positive temporary length positive
(assuming a positive tempo). -/
theorem modLoop_ok_pos :
    ∀ (fuel : ℕ) (tempo : ℤ) (ms : ModState) (l : List Char) (ms2 : ModState)
      (r : List Char),
      0 < tempo → modLoop tempo fuel ms l = Except.ok (ms2, r) →
      0 < ms.tempLength → 0 < ms.nextDot → 0 < ms2.tempLength := by
  intro fuel
  induction fuel with
  | zero =>
    intro tempo ms l ms2 r _ h hL _
    cases l with
    | nil =>
      unfold modLoop at h
      cases h
      exact hL
    | cons c cs =>
      unfold modLoop at h
      cases h
      exact hL
  | succ fuel ih =>
    intro tempo ms l ms2 r htempo h hL hD
    cases l with
    | nil =>
      unfold modLoop at h
      cases h
      exact hL
    | cons c cs =>
      unfold modLoop at h
      dsimp only at h
      split_ifs at h with h1 h2 h3 h4 h5 h6 h7 h8 h9 h10 h11
      all_goals
        first
          | (cases h; exact hL)
          | exact ih tempo _ _ ms2 r htempo h hL hD
          | exact ih tempo _ _ ms2 r htempo h (add_pos hL hD) (mul_pos hD (by norm_num))
          | (have hguard :
                ¬((getNumberAux (digitVal c) cs).1 < 1 ∨ 64 < (getNumberAux (digitVal c) cs).1) := by
               assumption
             have hge : (1 : ℤ) ≤ (getNumberAux (digitVal c) cs).1 := by omega
             have hgt :
                 (0 : ℚ) < 240 / (((getNumberAux (digitVal c) cs).1 : ℚ) * (tempo : ℚ)) := by
               apply div_pos (by norm_num)
               apply mul_pos
               · exact_mod_cast lt_of_lt_of_le zero_lt_one hge
               · exact_mod_cast htempo
             exact ih tempo _ _ ms2 r htempo h hgt (mul_pos hgt (by norm_num)))

set_option maxHeartbeats 1000000 in
/-- One parser command preserves the parser invariant. -/
theorem step_inv {P : Type} [Inhabited P] (pitches : List P) (insts : List Char)
    (st : PState P) (c : Char) (cs : List Char) (p : PState P × List Char)
    (hinv : ParserInv st) (h : step pitches insts st c cs = Except.ok p) :
    ParserInv p.1 := by
  obtain ⟨htempo, hbeat, hlen, hpair, hle⟩ := hinv
  unfold step at h
  dsimp only at h
  by_cases hAG : 'A' ≤ c ∧ c ≤ 'G'
  · rw [if_pos hAG] at h
    split at h
    · exact Except.noConfusion h
    · rename_i ms rest hm
      cases h
      have hLpos : 0 < ms.tempLength :=
        modLoop_ok_pos _ _ _ _ _ _ htempo hm hlen (mul_pos hlen (by norm_num))
      refine ⟨htempo, hbeat, hlen, ?_, ?_⟩
      · rw [List.pairwise_append]
        refine ⟨hpair, by simp, ?_⟩
        intro a ha b hb
        rw [List.mem_singleton] at hb
        subst hb
        exact hle a ha
      · intro n hn
        rcases List.mem_append.mp hn with hn | hn
        · have h1 := hle n hn
          by_cases hadv : ms.advance = true
          · simp only [hadv, if_true]
            linarith
          · simp only [Bool.not_eq_true] at hadv
            simp only [hadv, Bool.false_eq_true, if_false]
            exact h1
        · rw [List.mem_singleton] at hn
          subst hn
          by_cases hadv : ms.advance = true
          · simp only [hadv, if_true]
            linarith
          · simp only [Bool.not_eq_true] at hadv
            simp only [hadv, Bool.false_eq_true, if_false]
            exact le_refl _
  · rw [if_neg hAG] at h
    by_cases hc1 : c = '>'
    · rw [if_pos hc1] at h
      split at h
      · exact Except.noConfusion h
      · cases h
        exact ⟨htempo, hbeat, hlen, hpair, hle⟩
    rw [if_neg hc1] at h
    by_cases hc2 : c = '<'
    · rw [if_pos hc2] at h
      split at h
      · exact Except.noConfusion h
      · cases h
        exact ⟨htempo, hbeat, hlen, hpair, hle⟩
    rw [if_neg hc2] at h
    by_cases hc3 : c = 'T'
    · rw [if_pos hc3] at h
      split at h
      · exact Except.noConfusion h
      · rename_i n rest hg
        split at h
        · exact Except.noConfusion h
        · rename_i hguard
          cases h
          refine ⟨?_, hbeat, ?_, hpair, hle⟩
          · show (0 : ℤ) < n
            omega
          · show (0 : ℚ) < 240 / ((st.currentBeatNote : ℚ) * (n : ℚ))
            apply div_pos (by norm_num)
            apply mul_pos
            · exact_mod_cast hbeat
            · have h16 : (16 : ℤ) ≤ n := by omega
              exact_mod_cast lt_of_lt_of_le (by norm_num) h16
    rw [if_neg hc3] at h
    by_cases hc4 : c = 'L'
    · rw [if_pos hc4] at h
      split at h
      · exact Except.noConfusion h
      · rename_i n rest hg
        split at h
        · exact Except.noConfusion h
        · rename_i hguard
          cases h
          refine ⟨htempo, ?_, ?_, hpair, hle⟩
          · show (0 : ℤ) < n
            omega
          · show (0 : ℚ) < 240 / ((n : ℚ) * (st.currentTempo : ℚ))
            apply div_pos (by norm_num)
            apply mul_pos
            · have h1 : (1 : ℤ) ≤ n := by omega
              exact_mod_cast lt_of_lt_of_le (by norm_num) h1
            · exact_mod_cast htempo
    rw [if_neg hc4] at h
    by_cases hc5 : c = 'O'
    · rw [if_pos hc5] at h
      split at h
      · exact Except.noConfusion h
      · rename_i n rest hg
        split at h
        · exact Except.noConfusion h
        · cases h
          exact ⟨htempo, hbeat, hlen, hpair, hle⟩
    rw [if_neg hc5] at h
    by_cases hc6 : c = 'N'
    · rw [if_pos hc6] at h
      split at h
      · exact Except.noConfusion h
      · rename_i n rest hg
        split at h
        · exact Except.noConfusion h
        · rename_i hguard
          cases h
          refine ⟨htempo, hbeat, hlen, ?_, ?_⟩
          · by_cases hn0 : n ≠ 0
            · simp only [if_pos hn0]
              rw [List.pairwise_append]
              refine ⟨hpair, by simp, ?_⟩
              intro a ha b hb
              rw [List.mem_singleton] at hb
              subst hb
              exact hle a ha
            · simp only [if_neg hn0]
              exact hpair
          · intro m hm2
            by_cases hn0 : n ≠ 0
            · simp only [if_pos hn0] at hm2
              rcases List.mem_append.mp hm2 with hmm | hmm
              · have h1 := hle m hmm
                show m.startTime ≤ st.time + st.noteLength
                linarith
              · rw [List.mem_singleton] at hmm
                subst hmm
                show st.time ≤ st.time + st.noteLength
                linarith
            · simp only [if_neg hn0] at hm2
              have h1 := hle m hm2
              show m.startTime ≤ st.time + st.noteLength
              linarith
    rw [if_neg hc6] at h
    by_cases hc7 : c = 'P' ∨ c = 'R'
    · rw [if_pos hc7] at h
      split at h
      · split at h
        · exact Except.noConfusion h
        · rename_i len rest hg
          split at h
          · exact Except.noConfusion h
          · rename_i hguard
            cases h
            refine ⟨htempo, hbeat, hlen, hpair, ?_⟩
            intro m hm2
            have h1 := hle m hm2
            have hEl : (0 : ℚ) < 240 / ((len : ℚ) * (st.currentTempo : ℚ)) := by
              apply div_pos (by norm_num)
              apply mul_pos
              · have hg1 : (1 : ℤ) ≤ len := by omega
                exact_mod_cast lt_of_lt_of_le (by norm_num) hg1
              · exact_mod_cast htempo
            have hd :=
              dotLoop_pos rest (240 / ((len : ℚ) * (st.currentTempo : ℚ)))
                (240 / ((len : ℚ) * (st.currentTempo : ℚ)) * (1 / 2)) hEl
                (mul_pos hEl (by norm_num))
            show m.startTime ≤ st.time + _
            linarith
      · cases h
        refine ⟨htempo, hbeat, hlen, hpair, ?_⟩
        intro m hm2
        have h1 := hle m hm2
        have hd :=
          dotLoop_pos cs st.noteLength (st.noteLength * (1 / 2)) hlen
            (mul_pos hlen (by norm_num))
        show m.startTime ≤ st.time + _
        linarith
    rw [if_neg hc7] at h
    by_cases hc8 : c = 'M'
    · rw [if_pos hc8] at h
      repeat' split at h
      all_goals cases h <;> exact ⟨htempo, hbeat, hlen, hpair, hle⟩
    rw [if_neg hc8] at h
    by_cases hc9 : c = 'I'
    · rw [if_pos hc9] at h
      repeat' split at h
      all_goals cases h <;> exact ⟨htempo, hbeat, hlen, hpair, hle⟩
    rw [if_neg hc9] at h
    by_cases hc10 : c = 'V'
    · rw [if_pos hc10] at h
      repeat' split at h
      all_goals cases h <;> exact ⟨htempo, hbeat, hlen, hpair, hle⟩
    rw [if_neg hc10] at h
    exact Except.noConfusion h

/-- The parser loop preserves the invariant: a successful run from an
invariant-satisfying state ends in an invariant-satisfying state. -/
theorem run_inv {P : Type} [Inhabited P] (pitches : List P) (insts : List Char) :
    ∀ (fuel : ℕ) (l : List Char) (st stF : PState P),
      ParserInv st → run pitches insts fuel st l = Except.ok stF → ParserInv stF := by
  intro fuel
  induction fuel with
  | zero =>
    intro l st stF hinv h
    cases l with
    | nil =>
      unfold run at h
      cases h
      exact hinv
    | cons c cs =>
      unfold run at h
      cases h
      exact hinv
  | succ fuel ih =>
    intro l st stF hinv h
    cases l with
    | nil =>
      unfold run at h
      cases h
      exact hinv
    | cons c cs =>
      unfold run at h
      split at h
      · exact Except.noConfusion h
      · rename_i p hs
        exact ih p.2 p.1 stF (step_inv pitches insts st c cs p hinv hs) h

/-- A successful Maestro construction implies every line parsed. -/
theorem maestroAux_ok_all {P : Type} [Inhabited P] (pitches : List P) (insts : List Char) :
    ∀ (music : List String) (acc res : List (List (MNote P))),
      maestroAux pitches insts acc music = Except.ok res →
      ∀ s ∈ music, ∃ ns, buildVoiceFromString pitches insts s = Except.ok ns := by
  intro music
  induction music with
  | nil =>
    intro acc res _ s hs
    exact absurd hs (List.not_mem_nil s)
  | cons s0 rest ih =>
    intro acc res hok s hs
    unfold maestroAux at hok
    cases hbv : buildVoiceFromString pitches insts s0 with
    | error e =>
      rw [hbv] at hok
      exact Except.noConfusion hok
    | ok ns0 =>
      rw [hbv] at hok
      dsimp only at hok
      rcases List.mem_cons.mp hs with rfl | hs2
      · exact ⟨ns0, hbv⟩
      · exact ih _ res hok s hs2

/-! ### Claim theorems -/

/-- C1 (corrected), counterexample: in the A440 table, index 45 holds
A3 = 220 Hz, not 440 Hz, so the claim fails as stated. -/
theorem c1_cex : getStandardTwelveToneEqualNotes.getD 45 0 ≠ 440 := by
  have h := genOctaves_A_entry 9 3 ((440 : ℝ) / 16) (by norm_num)
  have e : 12 * 3 + 9 = 45 := by norm_num
  rw [e] at h
  unfold getStandardTwelveToneEqualNotes generateTwelveToneEqual
  rw [h]
  norm_num

/-- C1 (amended): in the standard table generated from A4 = 440 Hz, the
entry at index 57 (A4) equals 440.0 exactly, and the entry at index 69 (A5)
equals twice the entry at index 57, i.e. 880.0 (index 45 holds A3 = 220). -/
theorem c1_pitch_table :
    getStandardTwelveToneEqualNotes.getD 57 0 = 440 ∧
    getStandardTwelveToneEqualNotes.getD 69 0 =
      2 * getStandardTwelveToneEqualNotes.getD 57 0 ∧
    getStandardTwelveToneEqualNotes.getD 45 0 = 220 := by
  have h57 := genOctaves_A_entry 9 4 ((440 : ℝ) / 16) (by norm_num)
  have e57 : 12 * 4 + 9 = 57 := by norm_num
  rw [e57] at h57
  have h69 := genOctaves_A_entry 9 5 ((440 : ℝ) / 16) (by norm_num)
  have e69 : 12 * 5 + 9 = 69 := by norm_num
  rw [e69] at h69
  have h45 := genOctaves_A_entry 9 3 ((440 : ℝ) / 16) (by norm_num)
  have e45 : 12 * 3 + 9 = 45 := by norm_num
  rw [e45] at h45
  unfold getStandardTwelveToneEqualNotes generateTwelveToneEqual
  rw [h57, h69, h45]
  norm_num

/-- C2 (corrected), counterexample: for the AR envelope with peak 1, attack
length 1, release length 1, a note released at releaseTime 1/2 (mid-attack)
has, at time 3/4, gain (3/4)·(3/4) = 9/16, not the claimed frozen-snapshot
value (1/2)·(3/4) = 3/8: the attack factor keeps growing with `time`. -/
theorem c2_cex :
    AREnvelope.loud { attackPeak := 1, attackLength := 1, releaseLength := 1 }
        (3 / 4) (1 / 2) ≠
      1 / 2 / 1 * 1 * ((1 / 2 + 1 - 3 / 4) / 1) := by
  norm_num [AREnvelope.loud]

/-- C2 (amended): for every AR and ADSR envelope, when a note is released
mid-attack (0 ≤ releaseTime < attackLength), the gain at time t equals the
attack ramp evaluated at the current time t — (t/attackLength)·attackPeak —
multiplied by the release ramp ((releaseTime + releaseLength − t)/releaseLength);
only the branch selection uses the release snapshot, so the ramped-down value
keeps growing with t, it is not frozen at the release snapshot. -/
theorem c2_release_mid_attack :
    (∀ (e : AREnvelope) (t rt : ℝ), 0 ≤ rt → rt < e.attackLength →
      e.loud t rt =
        t / e.attackLength * e.attackPeak *
          ((rt + e.releaseLength - t) / e.releaseLength)) ∧
    (∀ (e : ADSREnvelope) (t rt : ℝ), 0 ≤ rt → rt < e.attackLength →
      e.loud t rt =
        t / e.attackLength * e.attackPeak *
          ((rt + e.releaseLength - t) / e.releaseLength)) := by
  constructor
  · intro e t rt h0 hlt
    have hne : rt ≠ -1 := by intro hc; rw [hc] at h0; linarith
    unfold AREnvelope.loud
    rw [if_neg hne, if_pos hlt]
  · intro e t rt h0 hlt
    have hne : rt ≠ -1 := by intro hc; rw [hc] at h0; linarith
    unfold ADSREnvelope.loud
    rw [if_neg hne, if_pos hlt]

/-- C3 (corrected), counterexample: a compound oscillator whose gains sum to
more than 1 (here a single member of gain 2 over a square wave) returns a
sample outside [-1, 1]. -/
theorem c3_cex :
    1 < compoundNote [{ gain := 2, oscillator := squareWave, harmonic := 1 }] 0 0 := by
  simp [compoundNote, squareWave, Real.sin_zero]

/-- C3 (amended): each primitive oscillator (sine, triangle, square, saw,
noise, rectangular for any duty) returns samples in [-1, 1] for every
frequency and time; a compound oscillator is bounded by the sum of the
absolute gains of its members (when each member stays within [-1, 1]), so it
lies in [-1, 1] whenever that sum is at most 1 — but not in general. -/
theorem c3_oscillator_ranges :
    (∀ f t : ℝ, -1 ≤ sineWave f t ∧ sineWave f t ≤ 1) ∧
    (∀ f t : ℝ, -1 ≤ triangularWave f t ∧ triangularWave f t ≤ 1) ∧
    (∀ f t : ℝ, -1 ≤ squareWave f t ∧ squareWave f t ≤ 1) ∧
    (∀ f t : ℝ, -1 ≤ sawWave f t ∧ sawWave f t ≤ 1) ∧
    (∀ (hash : ℝ → ℕ) (f t : ℝ), (∀ x, hash x < 2 ^ 64) →
      -1 ≤ noise hash f t ∧ noise hash f t ≤ 1) ∧
    (∀ f t duty : ℝ, -1 ≤ rectangularWave f t duty ∧ rectangularWave f t duty ≤ 1) ∧
    (∀ (l : List OscillatorHolder) (f t : ℝ),
      (∀ o ∈ l, ∀ fr ti, |o.oscillator fr ti| ≤ 1) →
      (l.map (fun o => |o.gain|)).sum ≤ 1 →
      -1 ≤ compoundNote l f t ∧ compoundNote l f t ≤ 1) := by
  refine ⟨?_, ?_, ?_, ?_, ?_, ?_, ?_⟩
  · intro f t
    exact ⟨Real.neg_one_le_sin _, Real.sin_le_one _⟩
  · intro f t
    unfold triangularWave
    have hp : (0 : ℝ) < Real.pi / 2 := by positivity
    constructor
    · rw [le_div_iff₀ hp]
      have := Real.neg_pi_div_two_le_arcsin (Real.sin (f * twoPi * t))
      linarith
    · rw [div_le_one hp]
      exact Real.arcsin_le_pi_div_two _
  · intro f t
    unfold squareWave
    split <;> norm_num
  · intro f t
    unfold sawWave
    have h1 := Int.floor_le (f * t + 1 / 2)
    have h2 := Int.lt_floor_add_one (f * t + 1 / 2)
    constructor <;> linarith
  · intro hash f t hb
    unfold noise
    have hpos : (0 : ℝ) < (2 : ℝ) ^ (64 : ℕ) - 1 := by norm_num
    have hk : (hash (f * twoPi * t) : ℝ) ≤ (2 : ℝ) ^ (64 : ℕ) - 1 := by
      have := hb (f * twoPi * t)
      have hle : (hash (f * twoPi * t) : ℝ) ≤ ((2 ^ 64 - 1 : ℕ) : ℝ) := by
        exact_mod_cast Nat.le_sub_one_of_lt this
      calc (hash (f * twoPi * t) : ℝ) ≤ ((2 ^ 64 - 1 : ℕ) : ℝ) := hle
        _ = (2 : ℝ) ^ (64 : ℕ) - 1 := by push_cast; norm_num
    have hq0 : (0 : ℝ) ≤ (hash (f * twoPi * t) : ℝ) / ((2 : ℝ) ^ (64 : ℕ) - 1) :=
      div_nonneg (Nat.cast_nonneg _) hpos.le
    have hq1 : (hash (f * twoPi * t) : ℝ) / ((2 : ℝ) ^ (64 : ℕ) - 1) ≤ 1 :=
      (div_le_one hpos).mpr hk
    constructor <;> linarith
  · intro f t duty
    simp only [rectangularWave]
    split <;> norm_num
  · intro l f t h hsum
    have hb := compound_fold_bound f t l h 0
    rw [abs_zero, zero_add] at hb
    have : |compoundNote l f t| ≤ 1 := by
      unfold compoundNote
      linarith
    exact abs_le.mp this

/-- C4 (corrected), counterexample: the line "NZ" contains the unrecognized
character Z and parsing fails, but the error (from the numeric reader of the
`N` command) does not reference Z. -/
theorem c4_cex :
    buildVoiceFromString (List.range 108) [nulChar] ("NZ") =
        Except.error ("Command requires value, none given.") ∧
      'Z' ∉ ("Command requires value, none given.").data :=
  ⟨rfl, by decide⟩

/-- C4 (amended): whenever the parser reaches a character that is not a
recognized command at command position, it raises a parse error whose message
references that character (as for the Z of "C#Z"); any parse error aborts
`Maestro` construction with no Voice list produced (for other malformed
inputs, such as "NZ", the message may be generic). -/
theorem c4_unrecognized_command {P : Type} [Inhabited P] (pitches : List P)
    (insts : List Char) :
    (∀ (st : PState P) (c : Char) (cs : List Char),
        ¬('A' ≤ c ∧ c ≤ 'G') →
        c ∉ (['>', '<', 'T', 'L', 'O', 'N', 'P', 'R', 'M', 'I', 'V'] : List Char) →
        step pitches insts st c cs = Except.error (mkBadCmd c) ∧
          c ∈ (mkBadCmd c).data) ∧
    (pitches.length = 108 → nulChar ∈ insts →
      buildVoiceFromString pitches insts ("C#Z") = Except.error (mkBadCmd 'Z')) ∧
    (∀ (music : List String) (res : List (List (MNote P))),
      maestroFromStrings pitches insts music = Except.ok res →
      ∀ s ∈ music, ∃ ns, buildVoiceFromString pitches insts s = Except.ok ns) := by
  refine ⟨?_, ?_, ?_⟩
  · intro st c cs hAG hmem
    simp only [List.mem_cons, List.not_mem_nil, or_false, not_or] at hmem
    obtain ⟨h1, h2, h3, h4, h5, h6, h7, h8, h9, h10, h11⟩ := hmem
    constructor
    · unfold step
      rw [if_neg hAG, if_neg h1, if_neg h2, if_neg h3, if_neg h4, if_neg h5, if_neg h6,
        if_neg (not_or.mpr ⟨h7, h8⟩), if_neg h9, if_neg h10, if_neg h11]
    · simp [mkBadCmd, aposS, String.singleton]
  · intro hp hn
    unfold buildVoiceFromString
    rw [hp]
    rw [if_neg (by norm_num : ¬(108 ≠ 108))]
    rw [if_neg (not_not_intro hn)]
    rfl
  · intro music res hok
    exact maestroAux_ok_all pitches insts music [] res hok

/-- C4 instantiated: the top-level dispatch on the unrecognized Z. -/
theorem c4_unrecognized_command_witness :
    step (List.range 108) [nulChar] (initState ℕ) 'Z' [] =
        Except.error (mkBadCmd 'Z') ∧
      'Z' ∈ (mkBadCmd 'Z').data :=
  (c4_unrecognized_command (List.range 108) [nulChar]).1 (initState ℕ) 'Z' []
    (by decide) (by decide)

/-- C5 (confirmed): in any parser state, `N n` with n = 0 emits no note but
advances the cursor by `noteLength`; with 1 ≤ n ≤ 108 it emits a note with
frequency `pitches[n-1]`, start time `cursorTime`, duration
`noteLength · articulation` and the current volume, then advances the cursor
by `noteLength`; with n > 108 it is a parse error. -/
theorem c5_command_N {P : Type} [Inhabited P] (pitches : List P) (insts : List Char)
    (st : PState P) (ds rest : List Char) (hne : ds ≠ [])
    (hds : ∀ c ∈ ds, '0' ≤ c ∧ c ≤ '9')
    (hr : ∀ c, rest.head? = some c → ¬('0' ≤ c ∧ c ≤ '9')) :
    (valDigits ds = 0 →
      step pitches insts st 'N' (ds ++ rest) =
        Except.ok ({ st with time := st.time + st.noteLength }, rest)) ∧
    (1 ≤ valDigits ds → valDigits ds ≤ 108 →
      step pitches insts st 'N' (ds ++ rest) =
        Except.ok
          ({ st with
              notes := st.notes ++
                [{ instrument := st.instrument
                   frequency := pitches.getD (valDigits ds - 1).toNat default
                   startTime := st.time
                   duration := st.noteLength * st.articulation
                   volume := st.volume }]
              time := st.time + st.noteLength }, rest)) ∧
    (108 < valDigits ds →
      step pitches insts st 'N' (ds ++ rest) = Except.error ("Invalid note number.")) := by
  have hg := getNumber_spec ds rest hne hds hr
  have hstep :
      step pitches insts st 'N' (ds ++ rest) =
        if 108 < valDigits ds then Except.error ("Invalid note number.")
        else
          Except.ok
            ({ st with
                notes :=
                  if valDigits ds ≠ 0 then
                    st.notes ++
                      [{ instrument := st.instrument
                         frequency := pitches.getD (valDigits ds - 1).toNat default
                         startTime := st.time
                         duration := st.noteLength * st.articulation
                         volume := st.volume }]
                  else st.notes
                time := st.time + st.noteLength }, rest) := by
    unfold step
    rw [if_neg (by decide), if_neg (by decide), if_neg (by decide), if_neg (by decide),
      if_neg (by decide), if_neg (by decide), if_pos rfl, hg]
  refine ⟨?_, ?_, ?_⟩
  · intro h0
    rw [hstep, if_neg (by omega), if_neg (not_not_intro h0)]
  · intro h1 h108
    rw [hstep, if_neg (by omega), if_pos (by omega)]
  · intro hgt
    rw [hstep, if_pos hgt]

/-- C5 instantiated: `N2` from the initial state. -/
theorem c5_command_N_witness :
    step (List.range 108) [nulChar] (initState ℕ) 'N' (['2'] ++ []) =
      Except.ok
        ({ initState ℕ with
            notes := (initState ℕ).notes ++
              [{ instrument := (initState ℕ).instrument
                 frequency := (List.range 108).getD (valDigits ['2'] - 1).toNat default
                 startTime := (initState ℕ).time
                 duration := (initState ℕ).noteLength * (initState ℕ).articulation
                 volume := (initState ℕ).volume }]
            time := (initState ℕ).time + (initState ℕ).noteLength }, []) :=
  (c5_command_N (List.range 108) [nulChar] (initState ℕ) ['2'] [] (by decide) (by decide)
    (fun c hc => by simp at hc)).2.1 (by decide) (by decide)

/-- C6 (confirmed): parsing "C,E,G" from the default state yields exactly
three notes, all starting at cursor time 0, and the cursor advances exactly
once — after G, by the computed length of G (the default note length, 1/2 s). -/
theorem c6_chord_tie {P : Type} [Inhabited P] (pitches : List P) (insts : List Char) :
    ∃ stF : PState P,
      run pitches insts ((tokens ("C,E,G")).length + 1) (initState P)
          (tokens ("C,E,G")) = Except.ok stF ∧
        stF.notes.map (fun n => n.startTime) = [0, 0, 0] ∧
        stF.time = (initState P).noteLength ∧
        stF.time = 1 / 2 := by
  refine ⟨_, rfl, ?_, ?_, ?_⟩
  · norm_num [initState]
  · norm_num [initState]
  · norm_num [initState]

/-- C7 (confirmed): parsing "C4.." at the default tempo 120 and articulation
7/8 yields exactly one note whose duration is (1/4 + 1/8 + 1/16) of a whole
note (240/120 seconds) times the articulation. -/
theorem c7_dotted_note {P : Type} [Inhabited P] (pitches : List P) (insts : List Char) :
    ∃ stF : PState P,
      run pitches insts ((tokens ("C4..")).length + 1) (initState P)
          (tokens ("C4..")) = Except.ok stF ∧
        stF.notes.map (fun n => n.duration) =
          [(1 / 4 + 1 / 8 + 1 / 16) * (240 / 120) * (7 / 8)] := by
  refine ⟨_, rfl, ?_⟩
  have h4 :
      (getNumberAux (digitVal (cToUpper '4'))
          (List.filter (fun c => !cIsSpace c) [cToUpper '.', cToUpper '.'])).1 = 4 := by
    decide
  norm_num [initState, h4]

/-- C8 (confirmed): whenever `buildVoiceFromString` succeeds, the notes of
the resulting Voice are in non-decreasing start-time order. -/
theorem c8_sorted {P : Type} [Inhabited P] (pitches : List P) (insts : List Char)
    (input : String) (ns : List (MNote P))
    (h : buildVoiceFromString pitches insts input = Except.ok ns) :
    ns.Pairwise (fun a b => a.startTime ≤ b.startTime) := by
  unfold buildVoiceFromString at h
  split at h
  · exact Except.noConfusion h
  · split at h
    · exact Except.noConfusion h
    · split at h
      · exact Except.noConfusion h
      · rename_i st2 heq
        cases h
        have hinv : ParserInv (initState P) :=
          ⟨by norm_num [initState], by norm_num [initState], by norm_num [initState],
            by simp [initState], by simp [initState]⟩
        exact (run_inv pitches insts _ _ _ _ hinv heq).2.2.2.1

/-- C8 instantiated: the voice parsed from "N1N2" is sorted by start time. -/
theorem c8_sorted_witness :
    List.Pairwise (fun a b => a.startTime ≤ b.startTime)
      ([{ instrument := Instr.ext nulChar, frequency := 0, startTime := 0,
          duration := 240 / (4 * 120) * (7 / 8), volume := 1 / 2 },
        { instrument := Instr.ext nulChar, frequency := 1, startTime := 0 + 240 / (4 * 120),
          duration := 240 / (4 * 120) * (7 / 8), volume := 1 / 2 }] : List (MNote ℕ)) :=
  c8_sorted (List.range 108) [nulChar] ("N1N2") _ (by rfl)

/-- C9 (confirmed): with `stopRequested` set, `getSample` on channel 0 clears
the queue, clears the flag, resets `internalTime` to −1, invokes the callback
if installed, and then continues with the normal per-sample logic (the
independent translation `getSampleTail` of steps 3-7) on the resulting state
instead of returning early. -/
theorem c9_stop_handling {M : Type} (api : MaestroAPI M) (v : VenueState M)
    (globalTime timeDelta : ℝ) (h : v.core.stopPlaying = true) :
    getSample api v 0 globalTime timeDelta =
      getSampleTail api
        { core :=
            applyCb v.hollaback
              { program := [], stopPlaying := false, looping := v.core.looping,
                internalTime := -1 }
          hollaback := v.hollaback }
        timeDelta := by
  obtain ⟨⟨prog, stop, loopb, it⟩, cb⟩ := v
  cases stop
  · simp at h
  · rfl

/-- C9 witness at a concrete stopped Venue. -/
theorem c9_stop_handling_witness :
    getSample unitAPI stopVenue2 0 2 1 =
      getSampleTail unitAPI
        { core :=
            applyCb stopVenue2.hollaback
              { program := [], stopPlaying := false, looping := stopVenue2.core.looping,
                internalTime := -1 }
          hollaback := stopVenue2.hollaback }
        1 :=
  c9_stop_handling unitAPI stopVenue2 2 1 rfl

/-- C10 (confirmed): the returned sample and resulting state of
`Venue::getSample` do not depend on the `globalTime` argument. -/
theorem c10_global_time_ignored {M : Type} (api : MaestroAPI M) (v : VenueState M)
    (unused : ℤ) (g1 g2 timeDelta : ℝ) :
    getSample api v unused g1 timeDelta = getSample api v unused g2 timeDelta := rfl

/-- C10 instantiated at a concrete Venue and two different global times. -/
theorem c10_global_time_ignored_witness :
    getSample unitAPI stopVenue 0 3 1 = getSample unitAPI stopVenue 0 7 1 :=
  c10_global_time_ignored unitAPI stopVenue 0 3 7 1

end TDSound
